import Mathlib

/-!
Verification of the batch-orchestration core of the mineru-k8s repository
(`process_paper.py` and `mineru_vlm.py`) against its design specification.

The Python sources are shallowly embedded: pure helpers become Lean
functions, the filesystem probed by the completion detector becomes an
explicit `FileSystem` value, the external conversion pipeline becomes an
oracle, and Python exceptions become `Except` values whose `try/except`
blocks become `match` expressions.
-/

set_option maxRecDepth 4000

namespace Mineru

/-! ## Dates (`datetime` values produced by `extract_date_from_folder_name`) -/

/-- Calendar date, modelling the Python `datetime` values used as sort keys
(the time-of-day part is always zero in this program and is omitted). -/
structure Date where
  year : Nat
  month : Nat
  day : Nat
deriving DecidableEq, Repr

/-- Gregorian leap-year rule, as used by Python `datetime` validation. -/
def isLeapYear (y : Nat) : Bool :=
  (y % 4 == 0 && y % 100 != 0) || y % 400 == 0

/-- Number of days of month `m` in year `y` (Python `calendar` rule). -/
def daysInMonth (y m : Nat) : Nat :=
  if m = 2 then (if isLeapYear y then 29 else 28)
  else if m = 4 ∨ m = 6 ∨ m = 9 ∨ m = 11 then 30
  else 31

/-- Validity of a `y-m-d` triple as a `datetime.strptime(s, "%Y-%m-%d")`
result: `strptime` raises `ValueError` (caught by the source's `except`
block) unless `MINYEAR ≤ y`, `1 ≤ m ≤ 12` and `1 ≤ d ≤ daysInMonth y m`. -/
def validDate (y m d : Nat) : Bool :=
  decide (1 ≤ y) && decide (1 ≤ m) && decide (m ≤ 12) &&
    decide (1 ≤ d) && decide (d ≤ daysInMonth y m)

/-- Numeric value of a decimal digit character. -/
def digitVal (c : Char) : Nat := c.toNat - '0'.toNat

/-- Value of a two-digit decimal string. -/
def val2 (a b : Char) : Nat := 10 * digitVal a + digitVal b

/-- Value of a four-digit decimal string. -/
def val4 (a b c d : Char) : Nat :=
  1000 * digitVal a + 100 * digitVal b + 10 * digitVal c + digitVal d

/-- Attempt to match the regex `(\d{4}-\d{2}-\d{2})` at the head of a
character list: ten characters shaped `dddd-dd-dd`.  Returns the
year/month/day numbers of the matched text. -/
def dateShapeParse : List Char → Option (Nat × Nat × Nat)
  | c1 :: c2 :: c3 :: c4 :: s1 :: c5 :: c6 :: s2 :: c7 :: c8 :: _ =>
    if c1.isDigit ∧ c2.isDigit ∧ c3.isDigit ∧ c4.isDigit ∧ s1 = '-' ∧
        c5.isDigit ∧ c6.isDigit ∧ s2 = '-' ∧ c7.isDigit ∧ c8.isDigit then
      some (val4 c1 c2 c3 c4, val2 c5 c6, val2 c7 c8)
    else none
  | _ => none

/-- Leftmost match of the date pattern in a character list, mirroring how
`re.findall` scans start positions left to right and the source keeps only
`dates[0]`. -/
def findDate : List Char → Option (Nat × Nat × Nat)
  | [] => none
  | c :: rest =>
    match dateShapeParse (c :: rest) with
    | some v => some v
    | none => findDate rest

/-- The sentinel minimal date `datetime(1900, 1, 1)` returned when no date
can be extracted from a folder name. -/
def sentinelDate : Date := ⟨1900, 1, 1⟩

/-- Shallow embedding of `extract_date_from_folder_name`
(`process_paper.py` lines 18-40): find the first `YYYY-MM-DD` substring,
parse it with `strptime`; on no match, or on a `ValueError` from an
invalid calendar date (caught by the `except` block), return the sentinel
`datetime(1900, 1, 1)`.  Total: no error escapes. -/
def extract_date_from_folder_name (folder_name : String) : Date :=
  match findDate folder_name.toList with
  | some (y, m, d) => if validDate y m d then ⟨y, m, d⟩ else sentinelDate
  | none => sentinelDate

/-- The successfully parsed date of a folder name, when one exists; `none`
exactly when `extract_date_from_folder_name` falls back to the sentinel. -/
def parsedDateOpt (folder_name : String) : Option Date :=
  match findDate folder_name.toList with
  | some (y, m, d) => if validDate y m d then some ⟨y, m, d⟩ else none
  | none => none

/-! ## Folder prioritizer (`sort_folders_by_date_desc`) -/

/-- Lexicographic order on dates, as Python compares `datetime` values. -/
def Date.le (a b : Date) : Prop :=
  a.year < b.year ∨ (a.year = b.year ∧
    (a.month < b.month ∨ (a.month = b.month ∧ a.day ≤ b.day)))

/-- Strict lexicographic order on dates. -/
def Date.lt (a b : Date) : Prop :=
  a.year < b.year ∨ (a.year = b.year ∧
    (a.month < b.month ∨ (a.month = b.month ∧ a.day < b.day)))

instance (a b : Date) : Decidable (Date.le a b) := by
  unfold Date.le; infer_instance

instance (a b : Date) : Decidable (Date.lt a b) := by
  unfold Date.lt; infer_instance

/-- One input subfolder (a `FolderGroup`): its directory name and the stems
of the `*.pdf` files found in it by `glob`, in listing order. -/
structure Subfolder where
  name : String
  pdfs : List String
deriving DecidableEq, Repr

/-- Priority key of a folder, `extract_date_from_folder_name(path.name)`. -/
def folderDateKey (f : Subfolder) : Date := extract_date_from_folder_name f.name

/-- The order used by `folder_date_pairs.sort(key=lambda x: x[1],
reverse=True)`: `a` may precede `b` iff `a`'s date is at least `b`'s.
Python's sort is stable, so the embedding uses stable insertion sort with
this relation. -/
def folderOrder (a b : Subfolder) : Prop :=
  Date.le (folderDateKey b) (folderDateKey a)

instance : DecidableRel folderOrder := fun a b => by
  unfold folderOrder; infer_instance

instance : IsTotal Subfolder folderOrder :=
  ⟨by intro a b; unfold folderOrder Date.le; omega⟩

instance : IsTrans Subfolder folderOrder :=
  ⟨by intro a b c; unfold folderOrder Date.le; omega⟩

/-- Shallow embedding of `sort_folders_by_date_desc` (`process_paper.py`
lines 43-70): stable sort of the folders by extracted date, most recent
first. -/
def sort_folders_by_date_desc (folder_paths : List Subfolder) : List Subfolder :=
  List.insertionSort folderOrder folder_paths

/-! ## Lemmas about date extraction -/

theorem extract_eq_getD (name : String) :
    extract_date_from_folder_name name = (parsedDateOpt name).getD sentinelDate := by
  unfold extract_date_from_folder_name parsedDateOpt
  cases h : findDate name.toList with
  | none => rfl
  | some v =>
    obtain ⟨y, m, d⟩ := v
    by_cases hv : validDate y m d = true
    · simp [hv]
    · simp [hv]

theorem findDate_of_leftmost (cs : List Char) (i : Nat) (v : Nat × Nat × Nat)
    (hmatch : dateShapeParse (cs.drop i) = some v)
    (hnone : ∀ j, j < i → dateShapeParse (cs.drop j) = none) :
    findDate cs = some v := by
  induction cs generalizing i with
  | nil =>
    rw [List.drop_nil] at hmatch
    simp [dateShapeParse] at hmatch
  | cons c rest ih =>
    cases i with
    | zero =>
      rw [List.drop_zero] at hmatch
      simp [findDate, hmatch]
    | succ i' =>
      have h0 : dateShapeParse (c :: rest) = none := by
        have := hnone 0 (Nat.succ_pos i')
        simpa using this
      have hm : dateShapeParse (rest.drop i') = some v := by
        simpa using hmatch
      have hn : ∀ j, j < i' → dateShapeParse (rest.drop j) = none := by
        intro j hj
        have := hnone (j + 1) (by omega)
        simpa using this
      simp [findDate, h0, ih i' hm hn]

theorem findDate_none (cs : List Char)
    (h : ∀ i, i < cs.length → dateShapeParse (cs.drop i) = none) :
    findDate cs = none := by
  induction cs with
  | nil => rfl
  | cons c rest ih =>
    have h0 : dateShapeParse (c :: rest) = none := by
      have := h 0 (by simp)
      simpa using this
    have hr : ∀ i, i < rest.length → dateShapeParse (rest.drop i) = none := by
      intro i hi
      have := h (i + 1) (by simp; omega)
      simpa using this
    simp [findDate, h0, ih hr]

/-- C5: for every folder name, if the name contains one or more substrings
matching `YYYY-MM-DD`, the first (leftmost) match parsed as a calendar
date is returned as the priority key; if no match exists, or the first
match fails calendar validation, the sentinel minimal date 1900-01-01 is
returned; in neither case is an error raised (the function is total). -/
theorem extract_date_first_match_spec (name : String) :
    (∀ i y m d, dateShapeParse (name.toList.drop i) = some (y, m, d) →
      (∀ j, j < i → dateShapeParse (name.toList.drop j) = none) →
      extract_date_from_folder_name name =
        (if validDate y m d then ⟨y, m, d⟩ else sentinelDate)) ∧
    ((∀ i, i < name.toList.length → dateShapeParse (name.toList.drop i) = none) →
      extract_date_from_folder_name name = sentinelDate) := by
  constructor
  · intro i y m d hm hn
    unfold extract_date_from_folder_name
    rw [findDate_of_leftmost name.toList i (y, m, d) hm hn]
  · intro h
    unfold extract_date_from_folder_name
    rw [findDate_none name.toList h]

/-- Witness for C5 at the spec's own examples: the name
`2015-01-01_2015-03-31_MNSC` has its leftmost pattern match at position 0
and yields 2015-01-01, while `no-date-here` matches nowhere and yields the
sentinel, and `2099-13-40_bad` matches but fails validation. -/
theorem extract_date_first_match_witness :
    extract_date_from_folder_name "2015-01-01_2015-03-31_MNSC" = ⟨2015, 1, 1⟩ ∧
    extract_date_from_folder_name "no-date-here" = sentinelDate ∧
    extract_date_from_folder_name "2099-13-40_bad" = sentinelDate := by
  refine ⟨?_, ?_, ?_⟩
  · have h := (extract_date_first_match_spec "2015-01-01_2015-03-31_MNSC").1 0 2015 1 1
      (by decide) (fun j hj => absurd hj (Nat.not_lt_zero j))
    exact h.trans (by decide)
  · have h := (extract_date_first_match_spec "no-date-here").2 (by decide)
    exact h
  · have h := (extract_date_first_match_spec "2099-13-40_bad").1 0 2099 13 40
      (by decide) (fun j hj => absurd hj (Nat.not_lt_zero j))
    exact h.trans (by decide)

/-! ## Lemmas about the folder prioritizer -/

theorem Date.lt_of_not_le (a b : Date) (h : ¬ Date.le a b) : Date.lt b a := by
  unfold Date.le at h
  unfold Date.lt
  omega

theorem Date.ne_of_lt (a b : Date) (h : Date.lt a b) : a ≠ b := by
  intro heq
  subst heq
  unfold Date.lt at h
  omega

theorem sort_folders_sorted (l : List Subfolder) :
    List.Sorted folderOrder (sort_folders_by_date_desc l) :=
  List.sorted_insertionSort folderOrder l

/-- Inserting a folder whose key is not `c` does not change the
key-`c` subsequence; inserting one whose key is `c` puts it in front of
the key-`c` subsequence (the elements skipped over have strictly greater
keys). -/
theorem filter_key_orderedInsert (c : Date) (x : Subfolder) (l : List Subfolder) :
    (List.orderedInsert folderOrder x l).filter (fun f => decide (folderDateKey f = c)) =
      if folderDateKey x = c
      then x :: l.filter (fun f => decide (folderDateKey f = c))
      else l.filter (fun f => decide (folderDateKey f = c)) := by
  induction l with
  | nil =>
    by_cases hx : folderDateKey x = c
    · simp [List.orderedInsert, List.filter, hx]
    · simp [List.orderedInsert, List.filter, hx]
  | cons y ys ih =>
    by_cases hxy : folderOrder x y
    · rw [List.orderedInsert_of_le folderOrder ys hxy]
      by_cases hx : folderDateKey x = c
      · simp [List.filter_cons, hx]
      · simp [List.filter_cons, hx]
    · have hlt : Date.lt (folderDateKey x) (folderDateKey y) :=
        Date.lt_of_not_le (folderDateKey y) (folderDateKey x) hxy
      have hstep :
          List.orderedInsert folderOrder x (y :: ys) =
            y :: List.orderedInsert folderOrder x ys := by
        simp [List.orderedInsert, hxy]
      rw [hstep]
      by_cases hx : folderDateKey x = c
      · have hy : folderDateKey y ≠ c := by
          intro hyc
          exact Date.ne_of_lt _ _ hlt (hx.trans hyc.symm)
        simp [List.filter_cons, hy, ih, hx]
      · by_cases hy : folderDateKey y = c
        · simp [List.filter_cons, hy, ih, hx]
        · simp [List.filter_cons, hy, ih, hx]

theorem filter_key_insertionSort (c : Date) (l : List Subfolder) :
    (List.insertionSort folderOrder l).filter (fun f => decide (folderDateKey f = c)) =
      l.filter (fun f => decide (folderDateKey f = c)) := by
  induction l with
  | nil => rfl
  | cons x xs ih =>
    have hstep : List.insertionSort folderOrder (x :: xs) =
        List.orderedInsert folderOrder x (List.insertionSort folderOrder xs) := rfl
    rw [hstep, filter_key_orderedInsert]
    by_cases hx : folderDateKey x = c
    · simp [List.filter_cons, hx, ih]
    · simp [List.filter_cons, hx, ih]

/-- C7: `sort_folders_by_date_desc` is a stable descending sort — for
every input list and every priority key, the subsequence of folders
carrying that key is exactly the same (same folders, same relative
discovery order) before and after sorting — and the function is
deterministic and idempotent: applying it to its own output returns the
identical order. -/
theorem sort_folders_stable_deterministic (l : List Subfolder) :
    (∀ c : Date,
      (sort_folders_by_date_desc l).filter (fun f => decide (folderDateKey f = c)) =
        l.filter (fun f => decide (folderDateKey f = c))) ∧
    sort_folders_by_date_desc (sort_folders_by_date_desc l) =
      sort_folders_by_date_desc l := by
  constructor
  · intro c
    exact filter_key_insertionSort c l
  · exact (sort_folders_sorted l).insertionSort_eq

/-- C6 counterexample: the claim "every sentinel-keyed group appears after
every group with a successfully parsed date" fails, because a parsed date
can precede the sentinel 1900-01-01.  The folder `0500-02-03_old` parses
to the valid calendar date 0500-02-03, which sorts below the sentinel, so
the dateless folder `nodate` is placed before it. -/
theorem sentinel_not_last_counterexample :
    sort_folders_by_date_desc
        [⟨"0500-02-03_old", []⟩, ⟨"nodate", []⟩] =
      [⟨"nodate", []⟩, ⟨"0500-02-03_old", []⟩] ∧
    parsedDateOpt "nodate" = none ∧
    parsedDateOpt "0500-02-03_old" = some ⟨500, 2, 3⟩ := by
  refine ⟨by decide, by decide, by decide⟩

/-- C6 amended: after sorting, every group whose name yields the sentinel
key (no parseable date) appears after every group whose name yields a
successfully parsed calendar date that is strictly later than the
sentinel date 1900-01-01.  (The original claim fails only for parsed
dates at or before 1900-01-01, see the counterexample.) -/
theorem sentinel_sorts_after_dated (subs : List Subfolder)
    (i j : Fin (sort_folders_by_date_desc subs).length)
    (hi : parsedDateOpt ((sort_folders_by_date_desc subs).get i).name = none)
    (hj : ∃ d, parsedDateOpt ((sort_folders_by_date_desc subs).get j).name = some d ∧
      Date.lt sentinelDate d) :
    (j : Nat) < (i : Nat) := by
  obtain ⟨d, hjd, hlt⟩ := hj
  have hki : folderDateKey ((sort_folders_by_date_desc subs).get i) = sentinelDate := by
    unfold folderDateKey
    rw [extract_eq_getD, hi]
    rfl
  have hkj : folderDateKey ((sort_folders_by_date_desc subs).get j) = d := by
    unfold folderDateKey
    rw [extract_eq_getD, hjd]
    rfl
  have hy1900 : sentinelDate.year = 1900 := rfl
  have hm1900 : sentinelDate.month = 1 := rfl
  have hd1900 : sentinelDate.day = 1 := rfl
  rcases Nat.lt_trichotomy (i : Nat) (j : Nat) with hij | hij | hij
  · exfalso
    have hrel := @List.Sorted.rel_get_of_lt _ _ _ (sort_folders_sorted subs) i j hij
    unfold folderOrder at hrel
    rw [hki, hkj] at hrel
    unfold Date.le at hrel
    unfold Date.lt at hlt
    omega
  · exfalso
    have : i = j := Fin.ext hij
    subst this
    rw [hki] at hkj
    subst hkj
    unfold Date.lt at hlt
    omega
  · exact hij

/-- Witness for the amended C6: with input `[nodate, 2020-05-06_x]` the
sorted order is `[2020-05-06_x, nodate]`, so the sentinel folder (index 1)
is after the dated folder (index 0). -/
theorem sentinel_sorts_after_dated_witness :
    parsedDateOpt "nodate" = none ∧ (0 : Nat) < 1 := by
  refine ⟨by decide, ?_⟩
  exact sentinel_sorts_after_dated
    [⟨"nodate", []⟩, ⟨"2020-05-06_x", []⟩]
    ⟨1, by decide⟩ ⟨0, by decide⟩
    (by decide)
    ⟨⟨2020, 5, 6⟩, by decide, by decide⟩

/-! ## Filesystem model and completion detector -/

/-- Snapshot of the output-side filesystem probed by the completion check.
A path is its list of components; `dirs` holds the paths that exist and
are directories, `files` the paths that exist and are regular files. -/
structure FileSystem where
  dirs : List (List String)
  files : List (List String)
deriving DecidableEq, Repr

/-- Python `p.exists() and p.is_dir()`: the path exists as a directory. -/
def FileSystem.existsDir (fs : FileSystem) (p : List String) : Bool :=
  fs.dirs.contains p

/-- Names of the regular files directly inside directory `p` — the
entries of `iterdir()` that satisfy `is_file()`. -/
def FileSystem.childFiles (fs : FileSystem) (p : List String) : List String :=
  fs.files.filterMap (fun q => if q.dropLast = p then q.getLast? else none)

/-- Index of the last dot in a character list (Python `name.rfind('.')`),
if any. -/
def lastDotIdx (cs : List Char) : Option Nat :=
  match cs.reverse.findIdx? (fun c => c == '.') with
  | some k => some (cs.length - 1 - k)
  | none => none

/-- Python `pathlib.PurePath.suffix`: the extension of the file name from
its last dot; empty when the dot is missing, leading, or trailing. -/
def pathSuffix (name : String) : String :=
  let cs := name.toList
  match lastDotIdx cs with
  | some i => if 0 < i ∧ i < cs.length - 1 then String.mk (cs.drop i) else ""
  | none => ""

/-- Extension test of `process_paper.py` line 154:
`result_file.suffix in ['.md', '.json', '.txt']`. -/
def recognizedResult (name : String) : Bool :=
  pathSuffix name == ".md" || pathSuffix name == ".json" || pathSuffix name == ".txt"

/-- Completion check of `process_folder_structure` (lines 139-168) for one
PDF stem: the per-item output directory `output_subfolder/stem` must exist
as a directory, its `vlm` subdirectory must exist as a directory, and that
subdirectory must contain at least one regular file with a recognized
result extension; otherwise the item is not complete. -/
def itemComplete (fs : FileSystem) (output_subfolder : List String)
    (stem : String) : Bool :=
  let output_pdf_dir := output_subfolder ++ [stem]
  if fs.existsDir output_pdf_dir then
    let vlm_dir := output_pdf_dir ++ ["vlm"]
    if fs.existsDir vlm_dir then
      (fs.childFiles vlm_dir).any recognizedResult
    else false
  else false

/-- The filtered work list (lines 136-168): the PDF stems that are not
already complete, kept in discovery order. -/
def filtered_pdf_files (fs : FileSystem) (output_subfolder : List String)
    (pdfs : List String) : List String :=
  pdfs.filter (fun s => ! itemComplete fs output_subfolder s)

/-- Count of PDFs skipped as already complete (`skipped_count`). -/
def skippedCount (fs : FileSystem) (output_subfolder : List String)
    (pdfs : List String) : Nat :=
  (pdfs.filter (fun s => itemComplete fs output_subfolder s)).length

/-! ## Batch partitioner (`parse_doc`, `mineru_vlm.py` lines 226-232) -/

/-- Batch partitioning of `parse_doc`:
`total_batches = (len(path_list) + batch_size - 1) // batch_size` and
batch `i` is the slice `path_list[i*batch_size : min((i+1)*batch_size, N)]`. -/
def parse_doc_batches {α : Type*} (batch_size : Nat) (path_list : List α) :
    List (List α) :=
  (List.range ((path_list.length + batch_size - 1) / batch_size)).map
    (fun i => (path_list.drop (i * batch_size)).take batch_size)

theorem parse_doc_batches_flatten_aux {α : Type*} (B : Nat) (l : List α) :
    ∀ k, ((List.range k).map (fun i => (l.drop (i * B)).take B)).flatten =
      l.take (k * B) := by
  intro k
  induction k with
  | zero => simp
  | succ k ih =>
    rw [List.range_succ, List.map_append, List.flatten_append]
    simp only [List.map_cons, List.map_nil, List.flatten_cons, List.flatten_nil,
      List.append_nil]
    rw [ih, Nat.succ_mul, List.take_add]

theorem ceil_div_eq (N B : Nat) (hB : 0 < B) :
    (N + B - 1) / B = N / B + (if N % B = 0 then 0 else 1) := by
  have hmod := Nat.div_add_mod N B
  have hlt : N % B < B := Nat.mod_lt N hB
  by_cases hs : N % B = 0
  · have h1 : N + B - 1 = B * (N / B) + (B - 1) := by omega
    have hb1 : (B - 1) / B = 0 := Nat.div_eq_of_lt (by omega)
    rw [h1, Nat.mul_add_div hB, hb1]
    simp [hs]
  · have hx : B * (N / B + 1) = B * (N / B) + B := by ring
    have h1 : N + B - 1 = B * (N / B + 1) + (N % B - 1) := by omega
    have hb1 : (N % B - 1) / B = 0 := Nat.div_eq_of_lt (by omega)
    rw [h1, Nat.mul_add_div hB, hb1]
    simp [hs]

/-- Concatenating the batches in order recovers the original list. -/
theorem parse_doc_batches_flatten {α : Type*} (B : Nat) (l : List α) (hB : 0 < B) :
    (parse_doc_batches B l).flatten = l := by
  have hmod := Nat.div_add_mod l.length B
  have hltB : l.length % B < B := Nat.mod_lt l.length hB
  have hceil := ceil_div_eq l.length B hB
  have hN : l.length ≤ ((l.length + B - 1) / B) * B := by
    rw [hceil]
    by_cases hs : l.length % B = 0
    · rw [if_pos hs, Nat.add_zero]
      have h2 : (l.length / B) * B = B * (l.length / B) := Nat.mul_comm _ _
      omega
    · rw [if_neg hs]
      have h2 : (l.length / B + 1) * B = B * (l.length / B) + B := by ring
      omega
  rw [parse_doc_batches, parse_doc_batches_flatten_aux]
  exact List.take_of_length_le (by omega)

/-- C4: for every list of work items and every positive batch size `B`,
`parse_doc` partitions the list into `ceil(N/B)` batches; every batch
except the last has size `B`; the last batch has size `N mod B` when that
is nonzero and `B` otherwise; and the concatenation of the batches in
order is the original list. -/
theorem parse_doc_batches_spec {α : Type*} (B : Nat) (l : List α) (hB : 0 < B) :
    (parse_doc_batches B l).length = (l.length + B - 1) / B ∧
    (parse_doc_batches B l).flatten = l ∧
    (∀ i (h : i < (parse_doc_batches B l).length),
      i + 1 < (parse_doc_batches B l).length →
      ((parse_doc_batches B l).get ⟨i, h⟩).length = B) ∧
    (∀ i (h : i < (parse_doc_batches B l).length),
      i + 1 = (parse_doc_batches B l).length →
      ((parse_doc_batches B l).get ⟨i, h⟩).length =
        if l.length % B = 0 then B else l.length % B) := by
  have hmod := Nat.div_add_mod l.length B
  have hltB : l.length % B < B := Nat.mod_lt l.length hB
  have hlen : (parse_doc_batches B l).length = (l.length + B - 1) / B := by
    simp [parse_doc_batches]
  have hget : ∀ i (h : i < (parse_doc_batches B l).length),
      (parse_doc_batches B l).get ⟨i, h⟩ = (l.drop (i * B)).take B := by
    intro i h
    simp [parse_doc_batches]
  have hceil := ceil_div_eq l.length B hB
  refine ⟨hlen, parse_doc_batches_flatten B l hB, ?_, ?_⟩
  · intro i h hnext
    rw [hget i h]
    rw [hlen] at hnext
    have hiB : i * B + B ≤ l.length := by
      by_cases hs : l.length % B = 0
      · have h1 : (l.length + B - 1) / B = l.length / B := by rw [hceil]; simp [hs]
        rw [h1] at hnext
        have h2 : (i + 2) * B ≤ (l.length / B) * B :=
          Nat.mul_le_mul_right B (by omega)
        have h3 : (i + 2) * B = i * B + 2 * B := by ring
        have h4 : (l.length / B) * B = B * (l.length / B) := Nat.mul_comm _ _
        omega
      · have h1 : (l.length + B - 1) / B = l.length / B + 1 := by rw [hceil]; simp [hs]
        rw [h1] at hnext
        have h2 : (i + 1) * B ≤ (l.length / B) * B :=
          Nat.mul_le_mul_right B (by omega)
        have h3 : (i + 1) * B = i * B + B := by ring
        have h4 : (l.length / B) * B = B * (l.length / B) := Nat.mul_comm _ _
        omega
    simp only [List.length_take, List.length_drop]
    omega
  · intro i h hlast
    rw [hget i h]
    rw [hlen] at hlast
    simp only [List.length_take, List.length_drop]
    by_cases hs : l.length % B = 0
    · have h1 : (l.length + B - 1) / B = l.length / B := by rw [hceil]; simp [hs]
      rw [h1] at hlast
      have hq1 : 1 ≤ l.length / B := by omega
      have h2 : i * B = (l.length / B - 1) * B := by rw [← hlast]; simp
      have h3 : (l.length / B - 1) * B = (l.length / B) * B - B := Nat.sub_one_mul _ _
      have h4 : (l.length / B) * B = B * (l.length / B) := Nat.mul_comm _ _
      have h5 : 1 * B ≤ (l.length / B) * B := Nat.mul_le_mul_right B hq1
      simp [hs]
      omega
    · have h1 : (l.length + B - 1) / B = l.length / B + 1 := by rw [hceil]; simp [hs]
      rw [h1] at hlast
      have h2 : i = l.length / B := by omega
      have h3 : i * B = B * (l.length / B) := by rw [h2]; ring
      simp [hs]
      omega

/-- Witness for C4 at the spec's own test values: 12 items with batch
size 5 give 3 batches whose concatenation is the original list (sizes
5, 5, 2 follow from the verified size clauses). -/
theorem parse_doc_batches_spec_witness :
    (parse_doc_batches 5 (List.range 12)).length = 3 ∧
    (parse_doc_batches 5 (List.range 12)).flatten = List.range 12 := by
  have h := parse_doc_batches_spec 5 (List.range 12) (by decide)
  exact ⟨h.1.trans (by decide), h.2.1⟩

/-! ## Completion detection (C3) -/

theorem itemComplete_iff (fs : FileSystem) (out : List String) (stem : String) :
    itemComplete fs out stem = true ↔
      fs.existsDir (out ++ [stem]) = true ∧
      fs.existsDir (out ++ [stem] ++ ["vlm"]) = true ∧
      (fs.childFiles (out ++ [stem] ++ ["vlm"])).any recognizedResult = true := by
  unfold itemComplete
  by_cases h1 : fs.existsDir (out ++ [stem]) = true
  · by_cases h2 : fs.existsDir (out ++ [stem] ++ ["vlm"]) = true
    · simp [h1, h2]
    · simp [h1, h2]
  · simp [h1]

theorem recognizedResult_iff (f : String) :
    recognizedResult f = true ↔
      pathSuffix f ∈ ([".md", ".json", ".txt"] : List String) := by
  unfold recognizedResult
  simp only [Bool.or_eq_true, beq_iff_eq, List.mem_cons, List.not_mem_nil, or_false]
  tauto

/-- C3: a work item is classified complete iff its output directory
`{output_root}/{logical_name}/` exists as a directory and its `vlm`
pipeline subdirectory exists and contains at least one regular file whose
extension is in the recognized result-extension set `.md/.json/.txt`;
when not complete (in particular when the output directory exists but the
`vlm` subdirectory is absent or holds no such file) the item is kept in
the filtered list for reprocessing, and when complete it is excluded from
the filtered list and hence from every batch. -/
theorem completion_detection (fs : FileSystem) (output_subfolder : List String)
    (pdfs : List String) (stem : String) (hmem : stem ∈ pdfs) :
    (itemComplete fs output_subfolder stem = true ↔
      (fs.existsDir (output_subfolder ++ [stem]) = true ∧
       fs.existsDir (output_subfolder ++ [stem] ++ ["vlm"]) = true ∧
       ∃ f ∈ fs.childFiles (output_subfolder ++ [stem] ++ ["vlm"]),
         pathSuffix f ∈ ([".md", ".json", ".txt"] : List String))) ∧
    (itemComplete fs output_subfolder stem = false →
      stem ∈ filtered_pdf_files fs output_subfolder pdfs) ∧
    (itemComplete fs output_subfolder stem = true →
      stem ∉ filtered_pdf_files fs output_subfolder pdfs) ∧
    (itemComplete fs output_subfolder stem = true →
      ∀ B, 0 < B →
        ∀ b ∈ parse_doc_batches B (filtered_pdf_files fs output_subfolder pdfs),
          stem ∉ b) := by
  have hnotmem : itemComplete fs output_subfolder stem = true →
      stem ∉ filtered_pdf_files fs output_subfolder pdfs := by
    intro hc hin
    rw [filtered_pdf_files, List.mem_filter] at hin
    rw [hc] at hin
    simp at hin
  refine ⟨?_, ?_, hnotmem, ?_⟩
  · rw [itemComplete_iff]
    simp only [List.any_eq_true, recognizedResult_iff]
  · intro hc
    rw [filtered_pdf_files, List.mem_filter, hc]
    simp [hmem]
  · intro hc B hB b hb hstem
    have hflat := parse_doc_batches_flatten B
      (filtered_pdf_files fs output_subfolder pdfs) hB
    have hmf : stem ∈ (parse_doc_batches B
        (filtered_pdf_files fs output_subfolder pdfs)).flatten :=
      List.mem_flatten.2 ⟨b, hb, hstem⟩
    rw [hflat] at hmf
    exact hnotmem hc hmf

/-- Witness for C3: with output tree `out/G/N/vlm/N.md` present, the item
`N` is complete and excluded from the filtered list, while item `M`
(whose directory is absent) stays in it. -/
theorem completion_detection_witness :
    itemComplete
      ⟨[["out", "G", "N"], ["out", "G", "N", "vlm"]],
       [["out", "G", "N", "vlm", "N.md"]]⟩ ["out", "G"] "N" = true ∧
    "N" ∉ filtered_pdf_files
      ⟨[["out", "G", "N"], ["out", "G", "N", "vlm"]],
       [["out", "G", "N", "vlm", "N.md"]]⟩ ["out", "G"] ["N", "M"] ∧
    "M" ∈ filtered_pdf_files
      ⟨[["out", "G", "N"], ["out", "G", "N", "vlm"]],
       [["out", "G", "N", "vlm", "N.md"]]⟩ ["out", "G"] ["N", "M"] := by
  refine ⟨by decide, ?_, ?_⟩
  · exact (completion_detection
      ⟨[["out", "G", "N"], ["out", "G", "N", "vlm"]],
       [["out", "G", "N", "vlm", "N.md"]]⟩ ["out", "G"] ["N", "M"] "N"
      (by decide)).2.2.1 (by decide)
  · exact (completion_detection
      ⟨[["out", "G", "N"], ["out", "G", "N", "vlm"]],
       [["out", "G", "N", "vlm", "N.md"]]⟩ ["out", "G"] ["N", "M"] "M"
      (by decide)).2.1 (by decide)

/-! ## Conversion pipeline (`do_parse` / `parse_doc`, `mineru_vlm.py`) -/

/-- Observable per-item events of a `parse_doc` invocation. -/
inductive PEvent where
  | attemptItem (name : String)
  | itemArtifacts (name : String)
  | itemError (name : String)
  | readError (name : String)
  | sleepBatch
deriving DecidableEq, Repr

/-- Per-item pipeline oracle: whether the VLM analysis and artifact
writing inside `do_parse`s per-item `try` block (lines 77-152) succeed
for a given file; `Except.error` models the block raising. -/
def analyzeItem (parseOk : String → Bool) (name : String) : Except String Unit :=
  if parseOk name then Except.ok () else Except.error name

/-- Shallow embedding of `do_parse` (`mineru_vlm.py` lines 40-158): with
the `vlm-transformers` backend it loops over every file of the batch;
each item is analyzed inside its own `try` block — on success the item's
artifacts are written, on failure the `except` at line 153 logs and
`continue`s to the next item.  Any other backend only logs an error and
produces nothing. -/
def do_parse (parseOk : String → Bool) (backend : String)
    (pdf_file_names : List String) : List PEvent :=
  if backend = "vlm-transformers" then
    pdf_file_names.flatMap (fun n =>
      PEvent.attemptItem n ::
        (match analyzeItem parseOk n with
         | Except.ok _ => [PEvent.itemArtifacts n]
         | Except.error _ => [PEvent.itemError n]))
  else []

/-- The files of one batch whose `read_fn` call succeeds (the per-file
`try` at lines 245-253 catches read failures and drops the file). -/
def batchPrepared (readOk : String → Bool) (b : List String) : List String :=
  b.filter readOk

/-- Events of preparing and parsing one batch (`parse_doc` lines
236-280): a `readError` per file whose read raised, then — unless no file
survived, in which case the batch is skipped by `continue` — the
`do_parse` call on the surviving files. -/
def batchEvents (readOk parseOk : String → Bool) (backend : String)
    (b : List String) : List PEvent :=
  (b.filter (fun x => ! readOk x)).map PEvent.readError ++
    (if (batchPrepared readOk b).isEmpty then []
     else do_parse parseOk backend (batchPrepared readOk b))

/-- The batch loop of `parse_doc` (lines 229-290): batches run in order;
after a non-skipped batch other than the last, the loop sleeps before the
next batch (the `continue` for an empty prepared list skips that sleep). -/
def parse_doc_batch_loop (readOk parseOk : String → Bool) (backend : String) :
    List (List String) → List PEvent
  | [] => []
  | [b] => batchEvents readOk parseOk backend b
  | b :: b2 :: rest =>
    batchEvents readOk parseOk backend b ++
      (if (batchPrepared readOk b).isEmpty then [] else [PEvent.sleepBatch]) ++
      parse_doc_batch_loop readOk parseOk backend (b2 :: rest)

/-- All events of one `parse_doc` body run (lines 205-292). -/
def parse_doc_events (readOk parseOk : String → Bool) (backend : String)
    (batch_size : Nat) (path_list : List String) : List PEvent :=
  parse_doc_batch_loop readOk parseOk backend
    (parse_doc_batches batch_size path_list)

/-- Shallow embedding of `parse_doc` (lines 161-295) as seen by a caller:
the entire body sits inside `try ... except Exception` (lines 205 and
294) whose handler logs and returns normally, and every raising operation
inside the body (`read_fn`, the per-item analysis) is already caught
locally, so the call always returns `Except.ok` with the body's events. -/
def parse_doc_run (readOk parseOk : String → Bool) (backend : String)
    (batch_size : Nat) (path_list : List String) :
    Except String (List PEvent) :=
  Except.ok (parse_doc_events readOk parseOk backend batch_size path_list)

/-! ## Execution driver (`process_folder_structure`, `process_paper.py`) -/

/-- Run-level counters of `process_folder_structure` (lines 110-114).
The value `skipped_folders` feeds the final summary's processed-folder
count `len(sorted_subfolders) - skipped_folders`. -/
structure RunStats where
  total_pdfs : Nat
  total_skipped : Nat
  total_processed : Nat
  skipped_folders : Nat
deriving DecidableEq, Repr

/-- Observable events of the execution driver: a pipeline invocation for
a group (with the events the pipeline produced), a caught group failure
(the `except` at line 192, with the group's dispatched items), and the
inter-folder sleep (line 200). -/
inductive Event where
  | invokeGroup (folder : String) (items : List String) (pevents : List PEvent)
  | groupFailed (folder : String) (msg : String) (items : List String)
  | sleepFolders
deriving DecidableEq, Repr

/-- The group-level pipeline as the driver sees it: called with the
group's folder name and its filtered work list; `Except.error` models the
call raising into the driver's `except` block. -/
def GroupPipe : Type := String → List String → Except String (List PEvent)

/-- One iteration of the folder loop of `process_folder_structure`
(lines 117-200), with `isLast` telling whether this is the final folder
(the inter-folder sleep at lines 197-200 runs only when it is not):
folders without PDFs are skipped outright; complete PDFs are counted as
skipped; when the filtered list is empty the folder counts as fully
skipped and nothing is invoked; otherwise the pipeline runs inside `try`,
on success `total_processed` grows by the whole filtered list's length,
and on failure the `except` logs the group failure and `continue`s. -/
def processOneFolder (fs : FileSystem) (pipe : GroupPipe)
    (output_root : List String) (st : RunStats) (sub : Subfolder)
    (isLast : Bool) : RunStats × List Event :=
  let pdf_files := sub.pdfs
  if pdf_files.isEmpty then (st, [])
  else
    let output_subfolder := output_root ++ [sub.name]
    let skipped_count := skippedCount fs output_subfolder pdf_files
    let filtered := filtered_pdf_files fs output_subfolder pdf_files
    let st1 : RunStats :=
      { st with
        total_pdfs := st.total_pdfs + pdf_files.length
        total_skipped := st.total_skipped + skipped_count }
    if filtered.isEmpty then
      ({ st1 with skipped_folders := st1.skipped_folders + 1 }, [])
    else
      match pipe sub.name filtered with
      | Except.ok pevs =>
        ({ st1 with total_processed := st1.total_processed + filtered.length },
          Event.invokeGroup sub.name filtered pevs ::
            (if isLast then [] else [Event.sleepFolders]))
      | Except.error e =>
        (st1, [Event.groupFailed sub.name e filtered])

/-- The folder loop (lines 117-200): fold over the prioritized folders
carrying the statistics and the event log. -/
def runFolders (fs : FileSystem) (pipe : GroupPipe) (output_root : List String) :
    RunStats → List Event → List Subfolder → RunStats × List Event
  | st, evs, [] => (st, evs)
  | st, evs, sub :: rest =>
    runFolders fs pipe output_root
      (processOneFolder fs pipe output_root st sub rest.isEmpty).1
      (evs ++ (processOneFolder fs pipe output_root st sub rest.isEmpty).2) rest

/-- Shallow embedding of `process_folder_structure` (lines 73-211): sorts
the discovered subfolders by date descending and runs the folder loop
from zeroed counters; `none` models the early `return` when no subfolder
was found (line 103), in which case the final statistics summary is never
reached. -/
def process_folder_structure (fs : FileSystem) (pipe : GroupPipe)
    (output_root : List String) (subfolders : List Subfolder) :
    Option (RunStats × List Event) :=
  if subfolders.isEmpty then none
  else some (runFolders fs pipe output_root ⟨0, 0, 0, 0⟩ []
    (sort_folders_by_date_desc subfolders))

/-- The composed system: the driver invoking the real `parse_doc`. -/
def realPipe (readOk parseOk : String → Bool) (batch_size : Nat) : GroupPipe :=
  fun _ items => parse_doc_run readOk parseOk "vlm-transformers" batch_size items

/-! ## Per-folder contribution functions -/

/-- The filtered work list of one folder as the driver computes it. -/
def folderFiltered (fs : FileSystem) (output_root : List String)
    (sub : Subfolder) : List String :=
  filtered_pdf_files fs (output_root ++ [sub.name]) sub.pdfs

/-- PDFs of one folder counted as skipped. -/
def folderSkippedDelta (fs : FileSystem) (output_root : List String)
    (sub : Subfolder) : Nat :=
  skippedCount fs (output_root ++ [sub.name]) sub.pdfs

/-- Contribution of one folder to `total_processed`. -/
def folderProcessedDelta (fs : FileSystem) (pipe : GroupPipe)
    (output_root : List String) (sub : Subfolder) : Nat :=
  if (folderFiltered fs output_root sub).isEmpty then 0
  else
    match pipe sub.name (folderFiltered fs output_root sub) with
    | Except.ok _ => (folderFiltered fs output_root sub).length
    | Except.error _ => 0

/-- Items dispatched for one folder whose pipeline invocation failed. -/
def folderFailedDelta (fs : FileSystem) (pipe : GroupPipe)
    (output_root : List String) (sub : Subfolder) : Nat :=
  if (folderFiltered fs output_root sub).isEmpty then 0
  else
    match pipe sub.name (folderFiltered fs output_root sub) with
    | Except.ok _ => 0
    | Except.error _ => (folderFiltered fs output_root sub).length

/-- Contribution of one folder to `skipped_folders`: 1 exactly when the
folder had PDFs but all of them were already complete. -/
def folderSkippedFoldersDelta (fs : FileSystem) (output_root : List String)
    (sub : Subfolder) : Nat :=
  if sub.pdfs.isEmpty then 0
  else if (folderFiltered fs output_root sub).isEmpty then 1 else 0

/-- Total number of work items carried by `groupFailed` events: the items
of groups whose pipeline invocation raised, which the statistics counted
neither as skipped nor as processed. -/
def failedItemsCount (evs : List Event) : Nat :=
  (evs.map (fun e =>
    match e with
    | Event.groupFailed _ _ items => items.length
    | _ => 0)).sum

/-! ## Statistics bookkeeping lemmas -/

theorem skipped_add_filtered (fs : FileSystem) (out : List String)
    (pdfs : List String) :
    skippedCount fs out pdfs + (filtered_pdf_files fs out pdfs).length
      = pdfs.length := by
  unfold skippedCount filtered_pdf_files
  induction pdfs with
  | nil => rfl
  | cons p ps ih =>
    simp only [List.filter_cons]
    rcases Bool.eq_false_or_eq_true (itemComplete fs out p) with h | h
    · simp [h]
      omega
    · simp [h]
      omega

theorem failedItemsCount_append (a b : List Event) :
    failedItemsCount (a ++ b) = failedItemsCount a + failedItemsCount b := by
  unfold failedItemsCount
  rw [List.map_append, List.sum_append]

theorem processOneFolder_spec (fs : FileSystem) (pipe : GroupPipe)
    (out : List String) (st : RunStats) (sub : Subfolder) (isLast : Bool) :
    (processOneFolder fs pipe out st sub isLast).1.total_pdfs
        = st.total_pdfs + sub.pdfs.length ∧
    (processOneFolder fs pipe out st sub isLast).1.total_skipped
        = st.total_skipped + folderSkippedDelta fs out sub ∧
    (processOneFolder fs pipe out st sub isLast).1.total_processed
        = st.total_processed + folderProcessedDelta fs pipe out sub ∧
    (processOneFolder fs pipe out st sub isLast).1.skipped_folders
        = st.skipped_folders + folderSkippedFoldersDelta fs out sub ∧
    failedItemsCount (processOneFolder fs pipe out st sub isLast).2
        = folderFailedDelta fs pipe out sub := by
  unfold processOneFolder folderSkippedDelta folderProcessedDelta
    folderFailedDelta folderSkippedFoldersDelta folderFiltered
  by_cases hp : sub.pdfs.isEmpty = true
  · have hpn : sub.pdfs = [] := List.isEmpty_iff.mp hp
    have hplen : sub.pdfs.length = 0 := by rw [hpn]; rfl
    have hf : filtered_pdf_files fs (out ++ [sub.name]) sub.pdfs = [] := by
      rw [hpn]; rfl
    have hs0 : skippedCount fs (out ++ [sub.name]) sub.pdfs = 0 := by
      rw [hpn]; rfl
    simp [hp, hplen, hf, hs0, failedItemsCount]
  · by_cases hfe :
        (filtered_pdf_files fs (out ++ [sub.name]) sub.pdfs).isEmpty = true
    · simp [hp, hfe, failedItemsCount]
    · cases hcall :
          pipe sub.name (filtered_pdf_files fs (out ++ [sub.name]) sub.pdfs) with
      | ok pevs =>
        cases isLast with
        | true => simp [hp, hfe, hcall, failedItemsCount]
        | false => simp [hp, hfe, hcall, failedItemsCount]
      | error e => simp [hp, hfe, hcall, failedItemsCount]

theorem runFolders_spec (fs : FileSystem) (pipe : GroupPipe)
    (out : List String) :
    ∀ (l : List Subfolder) (st : RunStats) (evs : List Event),
    (runFolders fs pipe out st evs l).1.total_pdfs
        = st.total_pdfs + (l.map (fun s => s.pdfs.length)).sum ∧
    (runFolders fs pipe out st evs l).1.total_skipped
        = st.total_skipped + (l.map (folderSkippedDelta fs out)).sum ∧
    (runFolders fs pipe out st evs l).1.total_processed
        = st.total_processed + (l.map (folderProcessedDelta fs pipe out)).sum ∧
    (runFolders fs pipe out st evs l).1.skipped_folders
        = st.skipped_folders + (l.map (folderSkippedFoldersDelta fs out)).sum ∧
    failedItemsCount (runFolders fs pipe out st evs l).2
        = failedItemsCount evs + (l.map (folderFailedDelta fs pipe out)).sum := by
  intro l
  induction l with
  | nil =>
    intro st evs
    simp [runFolders]
  | cons sub rest ih =>
    intro st evs
    obtain ⟨h1, h2, h3, h4, h5⟩ :=
      processOneFolder_spec fs pipe out st sub rest.isEmpty
    obtain ⟨g1, g2, g3, g4, g5⟩ :=
      ih (processOneFolder fs pipe out st sub rest.isEmpty).1
        (evs ++ (processOneFolder fs pipe out st sub rest.isEmpty).2)
    rw [failedItemsCount_append, h5] at g5
    refine ⟨?_, ?_, ?_, ?_, ?_⟩ <;>
      simp only [runFolders, List.map_cons, List.sum_cons] <;>
      omega

/-! ## C1: statistics consistency -/

theorem folder_count_identity (fs : FileSystem) (pipe : GroupPipe)
    (out : List String) (s : Subfolder) :
    s.pdfs.length = folderSkippedDelta fs out s
      + folderProcessedDelta fs pipe out s + folderFailedDelta fs pipe out s := by
  have hsf := skipped_add_filtered fs (out ++ [s.name]) s.pdfs
  unfold folderSkippedDelta folderProcessedDelta folderFailedDelta folderFiltered
  by_cases hfe :
      (filtered_pdf_files fs (out ++ [s.name]) s.pdfs).isEmpty = true
  · have h0 : (filtered_pdf_files fs (out ++ [s.name]) s.pdfs).length = 0 := by
      rw [List.isEmpty_iff.mp hfe]; rfl
    simp [hfe]
    omega
  · cases hcall :
        pipe s.name (filtered_pdf_files fs (out ++ [s.name]) s.pdfs) with
    | ok pevs =>
      simp [hfe, hcall]
      omega
    | error e =>
      simp [hfe, hcall]
      omega

theorem folder_count_identity_sum (fs : FileSystem) (pipe : GroupPipe)
    (out : List String) (l : List Subfolder) :
    (l.map (fun s => s.pdfs.length)).sum
      = (l.map (folderSkippedDelta fs out)).sum
        + (l.map (folderProcessedDelta fs pipe out)).sum
        + (l.map (folderFailedDelta fs pipe out)).sum := by
  induction l with
  | nil => rfl
  | cons s rest ih =>
    simp only [List.map_cons, List.sum_cons]
    have := folder_count_identity fs pipe out s
    omega

/-- C1: at run end, the count of discovered items equals the count of
items skipped as already complete, plus the count of items dispatched for
processing, plus the count of items belonging to groups whose pipeline
invocation failed (which were counted neither as skipped nor as
processed). -/
theorem stats_consistency (fs : FileSystem) (pipe : GroupPipe)
    (out : List String) (subs : List Subfolder) (st : RunStats)
    (evs : List Event)
    (hrun : process_folder_structure fs pipe out subs = some (st, evs)) :
    st.total_pdfs = st.total_skipped + st.total_processed
      + failedItemsCount evs := by
  unfold process_folder_structure at hrun
  by_cases hempty : subs.isEmpty = true
  · rw [if_pos hempty] at hrun
    exact absurd hrun (by simp)
  · rw [if_neg hempty] at hrun
    have hpair := Option.some.inj hrun
    have hst : st = (runFolders fs pipe out ⟨0, 0, 0, 0⟩ []
        (sort_folders_by_date_desc subs)).1 := by rw [hpair]
    have hevs : evs = (runFolders fs pipe out ⟨0, 0, 0, 0⟩ []
        (sort_folders_by_date_desc subs)).2 := by rw [hpair]
    obtain ⟨h1, h2, h3, h4, h5⟩ := runFolders_spec fs pipe out
      (sort_folders_by_date_desc subs) ⟨0, 0, 0, 0⟩ []
    have hid := folder_count_identity_sum fs pipe out
      (sort_folders_by_date_desc subs)
    rw [hst, hevs]
    have hfe : failedItemsCount ([] : List Event) = 0 := rfl
    have hz1 : (⟨0, 0, 0, 0⟩ : RunStats).total_pdfs = 0 := rfl
    have hz2 : (⟨0, 0, 0, 0⟩ : RunStats).total_skipped = 0 := rfl
    have hz3 : (⟨0, 0, 0, 0⟩ : RunStats).total_processed = 0 := rfl
    omega

/-- Witness for C1 on a run whose only group's pipeline invocation fails:
2 discovered = 0 skipped + 0 processed + 2 items of the failed group. -/
theorem stats_consistency_witness :
    (⟨2, 0, 0, 0⟩ : RunStats).total_pdfs =
      (⟨2, 0, 0, 0⟩ : RunStats).total_skipped
        + (⟨2, 0, 0, 0⟩ : RunStats).total_processed
        + failedItemsCount
            [Event.groupFailed "2020-01-01_A" "boom" ["p1", "p2"]] :=
  stats_consistency ⟨[], []⟩ (fun _ _ => Except.error "boom") ["out"]
    [⟨"2020-01-01_A", ["p1", "p2"]⟩] ⟨2, 0, 0, 0⟩
    [Event.groupFailed "2020-01-01_A" "boom" ["p1", "p2"]] (by decide)

/-! ## Event trace lemmas for the folder loop -/

theorem folderFiltered_ne_imp_pdfs_ne (fs : FileSystem) (out : List String)
    (sub : Subfolder) (hfe : folderFiltered fs out sub ≠ []) :
    sub.pdfs.isEmpty = false := by
  rcases Bool.eq_false_or_eq_true sub.pdfs.isEmpty with h | h
  · exfalso
    apply hfe
    unfold folderFiltered filtered_pdf_files
    rw [List.isEmpty_iff.mp h]
    rfl
  · exact h

theorem processOneFolder_events_failed (fs : FileSystem) (pipe : GroupPipe)
    (out : List String) (st : RunStats) (sub : Subfolder) (isLast : Bool)
    (e : String) (hfe : folderFiltered fs out sub ≠ [])
    (hfail : pipe sub.name (folderFiltered fs out sub) = Except.error e) :
    (processOneFolder fs pipe out st sub isLast).2
      = [Event.groupFailed sub.name e (folderFiltered fs out sub)] := by
  have hp := folderFiltered_ne_imp_pdfs_ne fs out sub hfe
  unfold folderFiltered at hfe hfail ⊢
  have hfb : (filtered_pdf_files fs (out ++ [sub.name]) sub.pdfs).isEmpty
      = false := by
    rcases Bool.eq_false_or_eq_true
      (filtered_pdf_files fs (out ++ [sub.name]) sub.pdfs).isEmpty with h | h
    · exact absurd (List.isEmpty_iff.mp h) hfe
    · exact h
  unfold processOneFolder
  simp [hp, hfb, hfail]

theorem processOneFolder_events_ok (fs : FileSystem) (pipe : GroupPipe)
    (out : List String) (st : RunStats) (sub : Subfolder) (isLast : Bool)
    (pevs : List PEvent) (hfe : folderFiltered fs out sub ≠ [])
    (hok : pipe sub.name (folderFiltered fs out sub) = Except.ok pevs) :
    (processOneFolder fs pipe out st sub isLast).2
      = Event.invokeGroup sub.name (folderFiltered fs out sub) pevs ::
          (if isLast then [] else [Event.sleepFolders]) := by
  have hp := folderFiltered_ne_imp_pdfs_ne fs out sub hfe
  unfold folderFiltered at hfe hok ⊢
  have hfb : (filtered_pdf_files fs (out ++ [sub.name]) sub.pdfs).isEmpty
      = false := by
    rcases Bool.eq_false_or_eq_true
      (filtered_pdf_files fs (out ++ [sub.name]) sub.pdfs).isEmpty with h | h
    · exact absurd (List.isEmpty_iff.mp h) hfe
    · exact h
  unfold processOneFolder
  simp [hp, hfb, hok]

theorem runFolders_events_extend (fs : FileSystem) (pipe : GroupPipe)
    (out : List String) :
    ∀ (l : List Subfolder) (st : RunStats) (evs : List Event),
    ∃ tail, (runFolders fs pipe out st evs l).2 = evs ++ tail := by
  intro l
  induction l with
  | nil =>
    intro st evs
    exact ⟨[], by simp [runFolders]⟩
  | cons sub rest ih =>
    intro st evs
    obtain ⟨tail, htail⟩ :=
      ih (processOneFolder fs pipe out st sub rest.isEmpty).1
        (evs ++ (processOneFolder fs pipe out st sub rest.isEmpty).2)
    refine ⟨(processOneFolder fs pipe out st sub rest.isEmpty).2 ++ tail, ?_⟩
    simp only [runFolders]
    rw [htail, List.append_assoc]

theorem runFolders_event_mem (fs : FileSystem) (pipe : GroupPipe)
    (out : List String) (l : List Subfolder) (st : RunStats)
    (evs : List Event) (ev : Event) (h : ev ∈ evs) :
    ev ∈ (runFolders fs pipe out st evs l).2 := by
  obtain ⟨tail, htail⟩ := runFolders_events_extend fs pipe out l st evs
  rw [htail]
  exact List.mem_append_left tail h

theorem runFolders_failed_mem (fs : FileSystem) (pipe : GroupPipe)
    (out : List String) :
    ∀ (l : List Subfolder) (st : RunStats) (evs : List Event)
      (sub : Subfolder) (e : String), sub ∈ l →
      folderFiltered fs out sub ≠ [] →
      pipe sub.name (folderFiltered fs out sub) = Except.error e →
      Event.groupFailed sub.name e (folderFiltered fs out sub)
        ∈ (runFolders fs pipe out st evs l).2 := by
  intro l
  induction l with
  | nil =>
    intro st evs sub e hmem
    simp at hmem
  | cons s0 rest ih =>
    intro st evs sub e hmem hfe hfail
    simp only [runFolders]
    rcases List.mem_cons.mp hmem with heq | hrest
    · subst heq
      apply runFolders_event_mem
      rw [processOneFolder_events_failed fs pipe out st sub rest.isEmpty e hfe hfail]
      exact List.mem_append_right _ (by simp)
    · exact ih _ _ sub e hrest hfe hfail

theorem runFolders_ok_mem (fs : FileSystem) (pipe : GroupPipe)
    (out : List String) :
    ∀ (l : List Subfolder) (st : RunStats) (evs : List Event)
      (sub : Subfolder) (pevs : List PEvent), sub ∈ l →
      folderFiltered fs out sub ≠ [] →
      pipe sub.name (folderFiltered fs out sub) = Except.ok pevs →
      Event.invokeGroup sub.name (folderFiltered fs out sub) pevs
        ∈ (runFolders fs pipe out st evs l).2 := by
  intro l
  induction l with
  | nil =>
    intro st evs sub pevs hmem
    simp at hmem
  | cons s0 rest ih =>
    intro st evs sub pevs hmem hfe hok
    simp only [runFolders]
    rcases List.mem_cons.mp hmem with heq | hrest
    · subst heq
      apply runFolders_event_mem
      rw [processOneFolder_events_ok fs pipe out st sub rest.isEmpty pevs hfe hok]
      exact List.mem_append_right _ (by simp)
    · exact ih _ _ sub pevs hrest hfe hok

/-! ## C9: empty filtered list degenerate case -/

theorem processOneFolder_fully_skipped (fs : FileSystem) (pipe : GroupPipe)
    (out : List String) (st : RunStats) (sub : Subfolder) (isLast : Bool)
    (hp : sub.pdfs ≠ []) (hf : folderFiltered fs out sub = []) :
    processOneFolder fs pipe out st sub isLast =
      (⟨st.total_pdfs + sub.pdfs.length, st.total_skipped + sub.pdfs.length,
        st.total_processed, st.skipped_folders + 1⟩, []) := by
  have hpb : sub.pdfs.isEmpty = false := by
    rcases Bool.eq_false_or_eq_true sub.pdfs.isEmpty with h | h
    · exact absurd (List.isEmpty_iff.mp h) hp
    · exact h
  unfold folderFiltered at hf
  have hfb : (filtered_pdf_files fs (out ++ [sub.name]) sub.pdfs).isEmpty
      = true := List.isEmpty_iff.mpr hf
  have hskip : skippedCount fs (out ++ [sub.name]) sub.pdfs
      = sub.pdfs.length := by
    have hsum := skipped_add_filtered fs (out ++ [sub.name]) sub.pdfs
    rw [hf] at hsum
    simpa using hsum
  obtain ⟨a, b, c, d⟩ := st
  unfold processOneFolder
  simp [hpb, hfb, hskip]

/-- C9: a group whose filtered work list is empty after completion
detection (while the group did contain PDFs) produces no pipeline
invocation and no throttling delay (its event list is empty), is counted
as fully skipped (all its PDFs enter the skipped count and
`skipped_folders` is incremented, `total_processed` untouched), and the
loop moves on to the next group from that updated state. -/
theorem empty_group_degenerate (fs : FileSystem) (pipe : GroupPipe)
    (out : List String) (st : RunStats) (evs : List Event) (sub : Subfolder)
    (rest : List Subfolder) (hp : sub.pdfs ≠ [])
    (hf : folderFiltered fs out sub = []) :
    (processOneFolder fs pipe out st sub rest.isEmpty).2 = [] ∧
    (processOneFolder fs pipe out st sub rest.isEmpty).1 =
      ⟨st.total_pdfs + sub.pdfs.length, st.total_skipped + sub.pdfs.length,
        st.total_processed, st.skipped_folders + 1⟩ ∧
    runFolders fs pipe out st evs (sub :: rest) =
      runFolders fs pipe out
        ⟨st.total_pdfs + sub.pdfs.length, st.total_skipped + sub.pdfs.length,
          st.total_processed, st.skipped_folders + 1⟩ evs rest := by
  have h := processOneFolder_fully_skipped fs pipe out st sub rest.isEmpty hp hf
  refine ⟨by rw [h], by rw [h], ?_⟩
  simp only [runFolders]
  rw [h]
  simp

/-- Witness for C9: a single-PDF group whose item is already complete is
counted as fully skipped with an empty event list. -/
theorem empty_group_degenerate_witness :
    (processOneFolder
      ⟨[["out", "G", "N"], ["out", "G", "N", "vlm"]],
       [["out", "G", "N", "vlm", "N.md"]]⟩ (fun _ _ => Except.ok [])
      ["out"] ⟨0, 0, 0, 0⟩ ⟨"G", ["N"]⟩ (List.isEmpty ([] : List Subfolder))).2
      = [] ∧
    (processOneFolder
      ⟨[["out", "G", "N"], ["out", "G", "N", "vlm"]],
       [["out", "G", "N", "vlm", "N.md"]]⟩ (fun _ _ => Except.ok [])
      ["out"] ⟨0, 0, 0, 0⟩ ⟨"G", ["N"]⟩ (List.isEmpty ([] : List Subfolder))).1
      = ⟨(0 : Nat) + (["N"] : List String).length,
          (0 : Nat) + (["N"] : List String).length, 0, 0 + 1⟩ := by
  have h := empty_group_degenerate
    ⟨[["out", "G", "N"], ["out", "G", "N", "vlm"]],
     [["out", "G", "N", "vlm", "N.md"]]⟩ (fun _ _ => Except.ok [])
    ["out"] ⟨0, 0, 0, 0⟩ [] ⟨"G", ["N"]⟩ []
    (by decide) (by decide)
  exact ⟨h.1, h.2.1⟩

/-! ## C8: per-group failure containment -/

theorem folderSkippedFoldersDelta_le_one (fs : FileSystem)
    (out : List String) (s : Subfolder) :
    folderSkippedFoldersDelta fs out s ≤ 1 := by
  unfold folderSkippedFoldersDelta
  split
  · omega
  · split <;> omega

theorem sum_skippedFoldersDelta_le_length (fs : FileSystem)
    (out : List String) (l : List Subfolder) :
    (l.map (folderSkippedFoldersDelta fs out)).sum ≤ l.length := by
  induction l with
  | nil => simp
  | cons s rest ih =>
    simp only [List.map_cons, List.sum_cons, List.length_cons]
    have := folderSkippedFoldersDelta_le_one fs out s
    omega

theorem folderSkippedFoldersDelta_of_ne (fs : FileSystem)
    (out : List String) (s : Subfolder)
    (hfe : folderFiltered fs out s ≠ []) :
    folderSkippedFoldersDelta fs out s = 0 := by
  unfold folderSkippedFoldersDelta
  split
  · rfl
  · rw [if_neg]
    intro hc
    exact hfe (List.isEmpty_iff.mp hc)

/-- C8: if the pipeline invocation for one group (in priority position
`pre ++ g :: post`) raises, the run still completes and returns its final
statistics; the failure is logged as a `groupFailed` event carrying the
group's dispatched items; every subsequent group with work to do is still
attempted (it leaves an invocation or failure event of its own); the
processed total decomposes into per-group contributions unaffected by the
failure, with the failed group contributing 0; and the failed group does
not enter `skipped_folders`, so the summary's attempted-folder count
`len(sorted) - skipped_folders` still counts it. -/
theorem group_failure_containment (fs : FileSystem) (pipe : GroupPipe)
    (out : List String) (subs : List Subfolder) (pre post : List Subfolder)
    (g : Subfolder) (e : String)
    (hsplit : sort_folders_by_date_desc subs = pre ++ g :: post)
    (hfe : folderFiltered fs out g ≠ [])
    (hfail : pipe g.name (folderFiltered fs out g) = Except.error e) :
    ∃ st evs, process_folder_structure fs pipe out subs = some (st, evs) ∧
      Event.groupFailed g.name e (folderFiltered fs out g) ∈ evs ∧
      (∀ h ∈ post, folderFiltered fs out h ≠ [] →
        (∃ pevs, Event.invokeGroup h.name (folderFiltered fs out h) pevs ∈ evs) ∨
        (∃ m, Event.groupFailed h.name m (folderFiltered fs out h) ∈ evs)) ∧
      st.total_processed
        = ((pre ++ g :: post).map (folderProcessedDelta fs pipe out)).sum ∧
      folderProcessedDelta fs pipe out g = 0 ∧
      st.skipped_folders + 1 ≤ (sort_folders_by_date_desc subs).length := by
  have hne : subs.isEmpty = false := by
    rcases Bool.eq_false_or_eq_true subs.isEmpty with h | h
    · exfalso
      have hnil : subs = [] := List.isEmpty_iff.mp h
      rw [hnil] at hsplit
      have : ([] : List Subfolder) = pre ++ g :: post := hsplit
      exact (List.cons_ne_nil g post) (List.append_eq_nil.mp this.symm).2
    · exact h
  have hgmem : g ∈ sort_folders_by_date_desc subs := by
    rw [hsplit]
    exact List.mem_append_right pre (List.mem_cons_self g post)
  refine ⟨(runFolders fs pipe out ⟨0, 0, 0, 0⟩ []
      (sort_folders_by_date_desc subs)).1,
    (runFolders fs pipe out ⟨0, 0, 0, 0⟩ []
      (sort_folders_by_date_desc subs)).2, ?_, ?_, ?_, ?_, ?_, ?_⟩
  · unfold process_folder_structure
    rw [if_neg (by rw [hne]; exact Bool.false_ne_true)]
  · exact runFolders_failed_mem fs pipe out (sort_folders_by_date_desc subs)
      ⟨0, 0, 0, 0⟩ [] g e hgmem hfe hfail
  · intro h hmem hhfe
    have hhmem : h ∈ sort_folders_by_date_desc subs := by
      rw [hsplit]
      exact List.mem_append_right pre (List.mem_cons_of_mem g hmem)
    cases hcall : pipe h.name (folderFiltered fs out h) with
    | ok pevs =>
      exact Or.inl ⟨pevs, runFolders_ok_mem fs pipe out
        (sort_folders_by_date_desc subs) ⟨0, 0, 0, 0⟩ [] h pevs
        hhmem hhfe hcall⟩
    | error m =>
      exact Or.inr ⟨m, runFolders_failed_mem fs pipe out
        (sort_folders_by_date_desc subs) ⟨0, 0, 0, 0⟩ [] h m
        hhmem hhfe hcall⟩
  · have hspec := (runFolders_spec fs pipe out
      (sort_folders_by_date_desc subs) ⟨0, 0, 0, 0⟩ []).2.2.1
    have hz : (⟨0, 0, 0, 0⟩ : RunStats).total_processed = 0 := rfl
    rw [← hsplit]
    omega
  · unfold folderProcessedDelta
    rw [if_neg (fun hc => hfe (List.isEmpty_iff.mp hc)), hfail]
  · have hspec := (runFolders_spec fs pipe out
      (sort_folders_by_date_desc subs) ⟨0, 0, 0, 0⟩ []).2.2.2.1
    have hsum_eq : ((sort_folders_by_date_desc subs).map
        (folderSkippedFoldersDelta fs out)).sum
        = ((pre ++ g :: post).map (folderSkippedFoldersDelta fs out)).sum := by
      rw [hsplit]
    have hz : (⟨0, 0, 0, 0⟩ : RunStats).skipped_folders = 0 := rfl
    have hg0 := folderSkippedFoldersDelta_of_ne fs out g hfe
    have hb1 := sum_skippedFoldersDelta_le_length fs out pre
    have hb2 := sum_skippedFoldersDelta_le_length fs out post
    have hmap : ((pre ++ g :: post).map (folderSkippedFoldersDelta fs out)).sum
        = (pre.map (folderSkippedFoldersDelta fs out)).sum
          + (folderSkippedFoldersDelta fs out g
            + (post.map (folderSkippedFoldersDelta fs out)).sum) := by
      rw [List.map_append, List.sum_append, List.map_cons, List.sum_cons]
    have hlen : (sort_folders_by_date_desc subs).length
        = pre.length + (1 + post.length) := by
      rw [hsplit, List.length_append, List.length_cons]
      omega
    omega

/-- Witness for C8: a two-group run where the first (most recent) group's
pipeline call fails and the second group is still attempted. -/
theorem group_failure_containment_witness :
    ∃ st evs, process_folder_structure ⟨[], []⟩
        (fun n _ => if n == "2020-01-01_A" then Except.error "boom"
          else Except.ok []) ["out"]
        [⟨"2020-01-01_A", ["p"]⟩, ⟨"2019-01-01_B", ["q"]⟩]
        = some (st, evs) ∧
      Event.groupFailed "2020-01-01_A" "boom"
        (folderFiltered ⟨[], []⟩ ["out"] ⟨"2020-01-01_A", ["p"]⟩) ∈ evs ∧
      (∀ h ∈ ([⟨"2019-01-01_B", ["q"]⟩] : List Subfolder),
          folderFiltered ⟨[], []⟩ ["out"] h ≠ [] →
        (∃ pevs, Event.invokeGroup h.name (folderFiltered ⟨[], []⟩ ["out"] h) pevs ∈ evs) ∨
        (∃ m, Event.groupFailed h.name m (folderFiltered ⟨[], []⟩ ["out"] h) ∈ evs)) ∧
      st.total_processed
        = ((([] : List Subfolder) ++ (⟨"2020-01-01_A", ["p"]⟩ : Subfolder)
              :: [(⟨"2019-01-01_B", ["q"]⟩ : Subfolder)]).map
            (folderProcessedDelta ⟨[], []⟩
              (fun n _ => if n == "2020-01-01_A" then Except.error "boom"
                else Except.ok []) ["out"])).sum ∧
      folderProcessedDelta ⟨[], []⟩
          (fun n _ => if n == "2020-01-01_A" then Except.error "boom"
            else Except.ok []) ["out"] ⟨"2020-01-01_A", ["p"]⟩ = 0 ∧
      st.skipped_folders + 1 ≤ (sort_folders_by_date_desc
        [⟨"2020-01-01_A", ["p"]⟩, ⟨"2019-01-01_B", ["q"]⟩]).length :=
  group_failure_containment ⟨[], []⟩
    (fun n _ => if n == "2020-01-01_A" then Except.error "boom"
      else Except.ok []) ["out"]
    [⟨"2020-01-01_A", ["p"]⟩, ⟨"2019-01-01_B", ["q"]⟩]
    [] [⟨"2019-01-01_B", ["q"]⟩] ⟨"2020-01-01_A", ["p"]⟩ "boom"
    (by decide) (by decide) rfl

/-! ## C10: the catch-all in parse_doc and its driver-side consequences -/

theorem processOneFolder_no_failed (fs : FileSystem) (pipe : GroupPipe)
    (out : List String) (st : RunStats) (sub : Subfolder) (isLast : Bool)
    (hok : ∀ name items, ∃ pevs, pipe name items = Except.ok pevs)
    (m msg : String) (its : List String) :
    Event.groupFailed m msg its ∉ (processOneFolder fs pipe out st sub isLast).2 := by
  unfold processOneFolder
  by_cases hp : sub.pdfs.isEmpty = true
  · simp [hp]
  · by_cases hfe :
        (filtered_pdf_files fs (out ++ [sub.name]) sub.pdfs).isEmpty = true
    · simp [hp, hfe]
    · obtain ⟨pevs, hcall⟩ :=
        hok sub.name (filtered_pdf_files fs (out ++ [sub.name]) sub.pdfs)
      cases isLast with
      | true => simp [hp, hfe, hcall]
      | false => simp [hp, hfe, hcall]

theorem runFolders_no_failed (fs : FileSystem) (pipe : GroupPipe)
    (out : List String)
    (hok : ∀ name items, ∃ pevs, pipe name items = Except.ok pevs) :
    ∀ (l : List Subfolder) (st : RunStats) (evs : List Event)
      (m msg : String) (its : List String),
      Event.groupFailed m msg its ∉ evs →
      Event.groupFailed m msg its ∉ (runFolders fs pipe out st evs l).2 := by
  intro l
  induction l with
  | nil =>
    intro st evs m msg its h
    simpa [runFolders] using h
  | cons sub rest ih =>
    intro st evs m msg its h
    simp only [runFolders]
    apply ih
    intro hmem
    rcases List.mem_append.mp hmem with h1 | h2
    · exact h h1
    · exact processOneFolder_no_failed fs pipe out st sub rest.isEmpty
        hok m msg its h2

/-- C10 (implicit claim): `parse_doc` never raises — its whole body sits
in a catch-all `try/except` and every raising operation inside is caught
locally, so every invocation returns `Except.ok` with the body's events.
Consequently the per-group exception handler of
`process_folder_structure` is unreachable via pipeline failures (the run
log never holds a `groupFailed` event) and `total_processed` grows by the
full length of each non-empty filtered list, regardless of how many items
or batches failed inside `parse_doc`. -/
theorem parse_doc_never_raises (readOk parseOk : String → Bool) (B : Nat)
    (fs : FileSystem) (out : List String) (subs : List Subfolder)
    (st : RunStats) (evs : List Event)
    (hrun : process_folder_structure fs (realPipe readOk parseOk B) out subs
      = some (st, evs)) :
    (∀ name items, realPipe readOk parseOk B name items =
      Except.ok (parse_doc_events readOk parseOk "vlm-transformers" B items)) ∧
    (∀ m msg its, Event.groupFailed m msg its ∉ evs) ∧
    st.total_processed
      = (subs.map (fun s => (folderFiltered fs out s).length)).sum := by
  have hok : ∀ name items, realPipe readOk parseOk B name items =
      Except.ok (parse_doc_events readOk parseOk "vlm-transformers" B items) :=
    fun _ _ => rfl
  unfold process_folder_structure at hrun
  by_cases hempty : subs.isEmpty = true
  · rw [if_pos hempty] at hrun
    exact absurd hrun (by simp)
  · rw [if_neg hempty] at hrun
    have hpair := Option.some.inj hrun
    have hst : st = (runFolders fs (realPipe readOk parseOk B) out ⟨0, 0, 0, 0⟩ []
        (sort_folders_by_date_desc subs)).1 := by rw [hpair]
    have hevs : evs = (runFolders fs (realPipe readOk parseOk B) out ⟨0, 0, 0, 0⟩ []
        (sort_folders_by_date_desc subs)).2 := by rw [hpair]
    refine ⟨hok, ?_, ?_⟩
    · intro m msg its
      rw [hevs]
      exact runFolders_no_failed fs (realPipe readOk parseOk B) out
        (fun name items => ⟨_, hok name items⟩)
        (sort_folders_by_date_desc subs) ⟨0, 0, 0, 0⟩ [] m msg its
        (List.not_mem_nil _)
    · have hspec := (runFolders_spec fs (realPipe readOk parseOk B) out
        (sort_folders_by_date_desc subs) ⟨0, 0, 0, 0⟩ []).2.2.1
      have hdelta : folderProcessedDelta fs (realPipe readOk parseOk B) out
          = fun s => (folderFiltered fs out s).length := by
        funext s
        unfold folderProcessedDelta
        by_cases hfe : (folderFiltered fs out s).isEmpty = true
        · rw [if_pos hfe, List.isEmpty_iff.mp hfe]
          rfl
        · rw [if_neg hfe]
          rfl
      have hperm : (sort_folders_by_date_desc subs).Perm subs :=
        List.perm_insertionSort folderOrder subs
      have hsum : ((sort_folders_by_date_desc subs).map
            (fun s => (folderFiltered fs out s).length)).sum
          = (subs.map (fun s => (folderFiltered fs out s).length)).sum :=
        (hperm.map (fun s => (folderFiltered fs out s).length)).sum_eq
      rw [hst]
      rw [hdelta, hsum] at hspec
      have hz : (⟨0, 0, 0, 0⟩ : RunStats).total_processed = 0 := rfl
      omega

/-- Witness for C10: a one-group run through the real pipeline where the
single item is dispatched and counted. -/
theorem parse_doc_never_raises_witness :
    (⟨1, 0, 1, 0⟩ : RunStats).total_processed
      = (([⟨"2020-01-01_A", ["p"]⟩] : List Subfolder).map
          (fun s => (folderFiltered ⟨[], []⟩ ["out"] s).length)).sum :=
  (parse_doc_never_raises (fun _ => true) (fun _ => true) 5 ⟨[], []⟩ ["out"]
    [⟨"2020-01-01_A", ["p"]⟩] ⟨1, 0, 1, 0⟩
    [Event.invokeGroup "2020-01-01_A" ["p"]
      [PEvent.attemptItem "p", PEvent.itemArtifacts "p"]]
    (by decide)).2.2

/-! ## C2: per-item failure isolation inside a batch -/

theorem attempt_mem_do_parse (parseOk : String → Bool) (ns : List String)
    (x : String) (hx : x ∈ ns) :
    PEvent.attemptItem x ∈ do_parse parseOk "vlm-transformers" ns := by
  unfold do_parse
  rw [if_pos rfl, List.mem_flatMap]
  exact ⟨x, hx, List.mem_cons_self _ _⟩

theorem artifacts_mem_do_parse (parseOk : String → Bool) (ns : List String)
    (x : String) (hx : x ∈ ns) (hok : parseOk x = true) :
    PEvent.itemArtifacts x ∈ do_parse parseOk "vlm-transformers" ns := by
  unfold do_parse
  rw [if_pos rfl, List.mem_flatMap]
  refine ⟨x, hx, ?_⟩
  simp [analyzeItem, hok]

theorem error_mem_do_parse (parseOk : String → Bool) (ns : List String)
    (x : String) (hx : x ∈ ns) (hfail : parseOk x = false) :
    PEvent.itemError x ∈ do_parse parseOk "vlm-transformers" ns := by
  unfold do_parse
  rw [if_pos rfl, List.mem_flatMap]
  refine ⟨x, hx, ?_⟩
  simp [analyzeItem, hfail]

theorem artifacts_mem_do_parse_imp (parseOk : String → Bool) (backend : String)
    (ns : List String) (x : String)
    (h : PEvent.itemArtifacts x ∈ do_parse parseOk backend ns) :
    parseOk x = true := by
  unfold do_parse at h
  by_cases hb : backend = "vlm-transformers"
  · rw [if_pos hb, List.mem_flatMap] at h
    obtain ⟨a, ha, hmem⟩ := h
    rcases List.mem_cons.mp hmem with h1 | h2
    · exact absurd h1 (by simp)
    · by_cases hpa : parseOk a = true
      · have hxa : x = a := by simpa [analyzeItem, hpa] using h2
        rw [hxa]
        exact hpa
      · rw [Bool.not_eq_true] at hpa
        simp [analyzeItem, hpa] at h2
  · rw [if_neg hb] at h
    simp at h

theorem artifacts_mem_batchEvents_imp (readOk parseOk : String → Bool)
    (backend : String) (b : List String) (x : String)
    (h : PEvent.itemArtifacts x ∈ batchEvents readOk parseOk backend b) :
    parseOk x = true := by
  unfold batchEvents at h
  rcases List.mem_append.mp h with h1 | h2
  · obtain ⟨a, -, ha⟩ := List.mem_map.mp h1
    exact absurd ha (by simp)
  · by_cases hc : (batchPrepared readOk b).isEmpty = true
    · rw [if_pos hc] at h2
      simp at h2
    · rw [if_neg hc] at h2
      exact artifacts_mem_do_parse_imp parseOk backend _ x h2

theorem mem_batchEvents_of_do_parse (readOk parseOk : String → Bool)
    (backend : String) (b : List String) (e : PEvent)
    (hne : batchPrepared readOk b ≠ [])
    (he : e ∈ do_parse parseOk backend (batchPrepared readOk b)) :
    e ∈ batchEvents readOk parseOk backend b := by
  unfold batchEvents
  apply List.mem_append_right
  rw [if_neg (fun hc => hne (List.isEmpty_iff.mp hc))]
  exact he

theorem mem_batch_loop (readOk parseOk : String → Bool) (backend : String) :
    ∀ (bs : List (List String)) (b : List String) (e : PEvent),
      b ∈ bs → e ∈ batchEvents readOk parseOk backend b →
      e ∈ parse_doc_batch_loop readOk parseOk backend bs := by
  intro bs
  induction bs with
  | nil =>
    intro b e hb
    simp at hb
  | cons b0 rest ih =>
    intro b e hb he
    cases rest with
    | nil =>
      have hbb : b = b0 := by simpa using hb
      subst hbb
      simpa [parse_doc_batch_loop] using he
    | cons b1 rest2 =>
      simp only [parse_doc_batch_loop]
      rcases List.mem_cons.mp hb with h1 | h2
      · subst h1
        exact List.mem_append_left _ (List.mem_append_left _ he)
      · exact List.mem_append_right _ (ih b e h2 he)

theorem artifacts_mem_batch_loop_imp (readOk parseOk : String → Bool)
    (backend : String) :
    ∀ (bs : List (List String)) (x : String),
      PEvent.itemArtifacts x ∈ parse_doc_batch_loop readOk parseOk backend bs →
      parseOk x = true := by
  intro bs
  induction bs with
  | nil =>
    intro x h
    simp [parse_doc_batch_loop] at h
  | cons b0 rest ih =>
    intro x h
    cases rest with
    | nil =>
      exact artifacts_mem_batchEvents_imp readOk parseOk backend b0 x
        (by simpa [parse_doc_batch_loop] using h)
    | cons b1 rest2 =>
      simp only [parse_doc_batch_loop] at h
      rcases List.mem_append.mp h with h12 | h3
      · rcases List.mem_append.mp h12 with h1 | h2
        · exact artifacts_mem_batchEvents_imp readOk parseOk backend b0 x h1
        · by_cases hc : (batchPrepared readOk b0).isEmpty = true
          · rw [if_pos hc] at h2
            simp at h2
          · rw [if_neg hc] at h2
            simp at h2
      · exact ih x h3

theorem folderProcessedDelta_realPipe (readOk parseOk : String → Bool)
    (B : Nat) (fs : FileSystem) (out : List String) (s : Subfolder) :
    folderProcessedDelta fs (realPipe readOk parseOk B) out s
      = (folderFiltered fs out s).length := by
  unfold folderProcessedDelta
  by_cases hfe : (folderFiltered fs out s).isEmpty = true
  · rw [if_pos hfe, List.isEmpty_iff.mp hfe]
    rfl
  · rw [if_neg hfe]
    rfl

/-- C2 counterexample: in a run over one group of five PDFs where the
pipeline reports failure for exactly one item (`d3`, whose `itemError`
event the embedded `parse_doc` emits while producing artifacts for only
the other four), the driver still executes
`total_processed += len(filtered_pdf_files)` and ends with
`total_processed = 5`.  The claim, which demands that the failed item
appear in neither the skipped nor the processed count (so 4 here), is
therefore false on the code. -/
theorem per_item_failure_counterexample :
    process_folder_structure ⟨[], []⟩
        (realPipe (fun _ => true) (fun n => ! (n == "d3")) 5) ["out"]
        [⟨"2020-01-01_A", ["d1", "d2", "d3", "d4", "d5"]⟩] =
      some (⟨5, 0, 5, 0⟩,
        [Event.invokeGroup "2020-01-01_A" ["d1", "d2", "d3", "d4", "d5"]
          [PEvent.attemptItem "d1", PEvent.itemArtifacts "d1",
           PEvent.attemptItem "d2", PEvent.itemArtifacts "d2",
           PEvent.attemptItem "d3", PEvent.itemError "d3",
           PEvent.attemptItem "d4", PEvent.itemArtifacts "d4",
           PEvent.attemptItem "d5", PEvent.itemArtifacts "d5"]]) := by
  decide

/-- C2 amended: if the pipeline reports failure for exactly one item of
the filtered list, every item in every batch is still attempted, every
other (readable) item's artifacts are produced, the failed item gets no
artifacts, `parse_doc` still returns normally, and at the driver level
the failed item is not in the skipped count (it was classified not
complete) — but, contrary to the original claim, it IS included in
`total_processed`, which grows by the full filtered-list length because
the driver counts dispatched items, not per-item successes. -/
theorem per_item_failure_isolation (readOk parseOk : String → Bool)
    (B : Nat) (hB : 0 < B) (F : List String) (f : String)
    (hread : ∀ x ∈ F, readOk x = true) (hf : f ∈ F)
    (honly : ∀ x ∈ F, (parseOk x = false ↔ x = f)) :
    (∀ x ∈ F, PEvent.attemptItem x ∈
      parse_doc_events readOk parseOk "vlm-transformers" B F) ∧
    (∀ x ∈ F, x ≠ f → PEvent.itemArtifacts x ∈
      parse_doc_events readOk parseOk "vlm-transformers" B F) ∧
    PEvent.itemError f ∈
      parse_doc_events readOk parseOk "vlm-transformers" B F ∧
    PEvent.itemArtifacts f ∉
      parse_doc_events readOk parseOk "vlm-transformers" B F ∧
    parse_doc_run readOk parseOk "vlm-transformers" B F
      = Except.ok (parse_doc_events readOk parseOk "vlm-transformers" B F) ∧
    (∀ (fs : FileSystem) (out : List String) (st : RunStats) (g : Subfolder)
      (isLast : Bool), folderFiltered fs out g = F →
      itemComplete fs (out ++ [g.name]) f = false ∧
      (processOneFolder fs (realPipe readOk parseOk B) out st g
          isLast).1.total_processed
        = st.total_processed + F.length) := by
  have hmem_batch : ∀ x, x ∈ F → ∃ b, b ∈ parse_doc_batches B F ∧
      x ∈ batchPrepared readOk b ∧ batchPrepared readOk b ≠ [] := by
    intro x hx
    have hflat := parse_doc_batches_flatten B F hB
    have hxf : x ∈ (parse_doc_batches B F).flatten := by
      rw [hflat]
      exact hx
    obtain ⟨b, hb, hxb⟩ := List.mem_flatten.mp hxf
    have hxp : x ∈ batchPrepared readOk b :=
      List.mem_filter.mpr ⟨hxb, hread x (by
        have := parse_doc_batches_flatten B F hB
        rw [← this]
        exact List.mem_flatten.mpr ⟨b, hb, hxb⟩)⟩
    exact ⟨b, hb, hxp, fun hc => by rw [hc] at hxp; simp at hxp⟩
  refine ⟨?_, ?_, ?_, ?_, rfl, ?_⟩
  · intro x hx
    obtain ⟨b, hb, hxp, hne⟩ := hmem_batch x hx
    exact mem_batch_loop readOk parseOk "vlm-transformers"
      (parse_doc_batches B F) b _ hb
      (mem_batchEvents_of_do_parse readOk parseOk _ b _ hne
        (attempt_mem_do_parse parseOk (batchPrepared readOk b) x hxp))
  · intro x hx hxf
    obtain ⟨b, hb, hxp, hne⟩ := hmem_batch x hx
    have hok : parseOk x = true := by
      rcases Bool.eq_false_or_eq_true (parseOk x) with h | h
      · exact h
      · exact absurd ((honly x hx).mp h) hxf
    exact mem_batch_loop readOk parseOk "vlm-transformers"
      (parse_doc_batches B F) b _ hb
      (mem_batchEvents_of_do_parse readOk parseOk _ b _ hne
        (artifacts_mem_do_parse parseOk (batchPrepared readOk b) x hxp hok))
  · obtain ⟨b, hb, hxp, hne⟩ := hmem_batch f hf
    have hfail : parseOk f = false := (honly f hf).mpr rfl
    exact mem_batch_loop readOk parseOk "vlm-transformers"
      (parse_doc_batches B F) b _ hb
      (mem_batchEvents_of_do_parse readOk parseOk _ b _ hne
        (error_mem_do_parse parseOk (batchPrepared readOk b) f hxp hfail))
  · intro hcon
    have hok := artifacts_mem_batch_loop_imp readOk parseOk "vlm-transformers"
      (parse_doc_batches B F) f hcon
    have hfail : parseOk f = false := (honly f hf).mpr rfl
    rw [hok] at hfail
    simp at hfail
  · intro fs out st g isLast hfilter
    constructor
    · have hfin : f ∈ folderFiltered fs out g := by
        rw [hfilter]
        exact hf
      unfold folderFiltered filtered_pdf_files at hfin
      have := (List.mem_filter.mp hfin).2
      rcases Bool.eq_false_or_eq_true (itemComplete fs (out ++ [g.name]) f)
        with h | h
      · rw [h] at this
        simp at this
      · exact h
    · have hspec := (processOneFolder_spec fs (realPipe readOk parseOk B)
        out st g isLast).2.2.1
      rw [folderProcessedDelta_realPipe, hfilter] at hspec
      exact hspec

/-- Witness for the amended C2: two items in batches of one (so the
failure sits in its own batch and a later batch follows); `a` succeeds
with artifacts, `b` fails with an error event, and both are attempted. -/
theorem per_item_failure_isolation_witness :
    PEvent.attemptItem "a" ∈ parse_doc_events (fun _ => true)
      (fun n => ! (n == "b")) "vlm-transformers" 1 ["a", "b"] ∧
    PEvent.itemArtifacts "a" ∈ parse_doc_events (fun _ => true)
      (fun n => ! (n == "b")) "vlm-transformers" 1 ["a", "b"] ∧
    PEvent.itemError "b" ∈ parse_doc_events (fun _ => true)
      (fun n => ! (n == "b")) "vlm-transformers" 1 ["a", "b"] := by
  have h := per_item_failure_isolation (fun _ => true) (fun n => ! (n == "b"))
    1 (by decide) ["a", "b"] "b" (by decide) (by decide) (by decide)
  exact ⟨h.1 "a" (by decide), h.2.1 "a" (by decide) (by decide), h.2.2.1⟩

end Mineru
